import Mathlib

/-!
Verification of the logstash client library: a shallow embedding of the two
implementation copies in the repository (`src/index.ts`, the TypeScript copy,
and the plain-JavaScript copy) together with models of the external
collaborators (the retrying HTTP transport and the dispatch queue) that the
repository only configures.

Machine integers of the source (JavaScript numbers used as integral
configuration values) are modelled as `Int`; absent (`undefined`) values as
`Option`; thrown exceptions as `Except JsErr`.
-/

/-- A JavaScript runtime value, restricted to the shapes the library
manipulates: `null`, booleans, integral numbers, strings, objects
(insertion-ordered key/value entry lists, keys unique) and arrays.
`undefined` is modelled by `Option` at the use sites. -/
inductive JsValue where
  | vnull : JsValue
  | vbool : Bool → JsValue
  | vnum : Int → JsValue
  | vstr : String → JsValue
  | vobj : List (String × JsValue) → JsValue
  | varr : List JsValue → JsValue

/-- JavaScript truthiness of a value (`null`, `false`, `0` and `""` are
falsy; objects and arrays are always truthy). -/
def jsTruthy : JsValue → Bool
  | .vnull => false
  | .vbool b => b
  | .vnum n => n != 0
  | .vstr s => s != ""
  | .vobj _ => true
  | .varr _ => true

/-- Truthiness of a possibly-`undefined` value (`undefined` is falsy). -/
def jsTruthyOpt : Option JsValue → Bool
  | none => false
  | some v => jsTruthy v

/-- Truthiness of a possibly-missing string argument, as tested by
`if (!url)`: `undefined` and the empty string are falsy. -/
def jsTruthyStr : Option String → Bool
  | none => false
  | some s => s != ""

/-- `options.muteConsole === true`: true exactly for the boolean `true`. -/
def isBoolTrue : Option JsValue → Bool
  | some (.vbool true) => true
  | _ => false

/-- Lookup of a key in a JavaScript object's entry list (first match). -/
def lookupKey : List (String × JsValue) → String → Option JsValue
  | [], _ => none
  | (k, v) :: rest, key => if k = key then some v else lookupKey rest key

/-- Writing property `key := v` on an object entry list: an existing key keeps
its position and gets the new value, a fresh key is appended at the end.  This
is the update semantics shared by an object-literal property after a spread
and by `Object.assign` copying one source property onto a target. -/
def setKey (es : List (String × JsValue)) (key : String) (v : JsValue) :
    List (String × JsValue) :=
  if es.any (fun p => p.1 = key) then
    es.map (fun p => if p.1 = key then (key, v) else p)
  else
    es ++ [(key, v)]

/-- The entries spread out of a possibly-`undefined` fields value:
`...fields` contributes an object's own entries; spreading `undefined` or
`null` contributes nothing (primitive fields values are outside the model). -/
def entriesOfOpt : Option JsValue → List (String × JsValue)
  | some (.vobj es) => es
  | _ => []

/-- The numeric option pattern `options.x || d`: an absent or zero value
falls back to the default, any other number (negative included) is kept. -/
def jsOrNum : Option Int → Int → Int
  | none, d => d
  | some n, d => if n != 0 then n else d

/-- The constructor options object (`retryDelay`, `concurrency`,
`maxMessagesPerSecond`, `muteConsole`), each property possibly absent. -/
structure Options where
  retryDelay : Option Int := none
  concurrency : Option Int := none
  maxMessagesPerSecond : Option Int := none
  muteConsole : Option JsValue := none

/-- A thrown JavaScript exception. -/
inductive JsErr where
  | typeError : String → JsErr
deriving DecidableEq

/-- The constructed logger instance: the fields the `Logstash` constructor
assigns onto `this`. -/
structure Logstash where
  url : String
  tags : List String
  level : String
  maxRetries : Int
  retryDelay : Int
  concurrency : Int
  maxMessagesPerSecond : Int
  muteConsole : Bool

/-- JSON escaping of one character (quotes, backslashes and the common
control characters). -/
def jsonEscape (c : Char) : String :=
  if c = '"' then "\\\""
  else if c = '\\' then "\\\\"
  else if c = '\n' then "\\n"
  else if c = '\t' then "\\t"
  else if c = '\r' then "\\r"
  else String.singleton c

/-- A JSON string literal. -/
def jsonQuote (s : String) : String :=
  "\"" ++ String.join (s.toList.map jsonEscape) ++ "\""

mutual

/-- Modelled from the spec: `JSON.stringify`, an external runtime builtin —
the compact JSON rendering of a value ("fields as compact JSON"). -/
def stringify : JsValue → String
  | .vnull => "null"
  | .vbool b => cond b "true" "false"
  | .vnum n => toString n
  | .vstr s => jsonQuote s
  | .vobj es => "\x7b" ++ stringifyEntries es ++ "\x7d"
  | .varr vs => "[" ++ stringifyElems vs ++ "]"

/-- Comma-separated `"key":value` renderings of an object's entries. -/
def stringifyEntries : List (String × JsValue) → String
  | [] => ""
  | [(k, v)] => jsonQuote k ++ ":" ++ stringify v
  | (k, v) :: rest =>
      jsonQuote k ++ ":" ++ stringify v ++ "," ++ stringifyEntries rest

/-- Comma-separated renderings of an array's elements. -/
def stringifyElems : List JsValue → String
  | [] => ""
  | [v] => stringify v
  | v :: rest => stringify v ++ "," ++ stringifyElems rest

end

/-- `JSON.stringify` on a possibly-`undefined` value (the `undefined` case is
never rendered by the library because only truthy fields reach it). -/
def stringifyOpt : Option JsValue → String
  | some v => stringify v
  | none => "undefined"

/-- Leap year in the proleptic Gregorian calendar. -/
def isLeap (y : Nat) : Bool := (y % 4 == 0 && y % 100 != 0) || y % 400 == 0

/-- Days in a calendar year. -/
def daysInYear (y : Nat) : Nat := if isLeap y then 366 else 365

/-- The month lengths of a year. -/
def monthLengths (leap : Bool) : List Nat :=
  [31, if leap then 29 else 28, 31, 30, 31, 30, 31, 31, 30, 31, 30, 31]

/-- Convert a day count into a calendar year and day-of-year by walking years
forward from `y`; the fuel bounds the walk and suffices whenever
`d ≤ 365 * fuel`. -/
def findYear : Nat → Nat → Nat → Nat × Nat
  | 0, y, d => (y, d)
  | fuel + 1, y, d =>
      if d < daysInYear y then (y, d) else findYear fuel (y + 1) (d - daysInYear y)

/-- Split a day-of-year into a zero-based month index (counted from `m`) and a
zero-based day-of-month. -/
def findMonth : List Nat → Nat → Nat → Nat × Nat
  | [], m, d => (m, d)
  | len :: rest, m, d => if d < len then (m, d) else findMonth rest (m + 1) (d - len)

/-- The decimal digit character of `n % 10`. -/
def digitChar (n : Nat) : Char := Nat.digitChar (n % 10)

/-- Two-digit zero-padded decimal rendering (for values below 100). -/
def pad2 (n : Nat) : List Char := [digitChar (n / 10), digitChar n]

/-- Three-digit zero-padded decimal rendering (for values below 1000). -/
def pad3 (n : Nat) : List Char := [digitChar (n / 100), digitChar (n / 10), digitChar n]

/-- Four-digit zero-padded decimal rendering (for values below 10000). -/
def pad4 (n : Nat) : List Char :=
  [digitChar (n / 1000), digitChar (n / 100), digitChar (n / 10), digitChar n]

/-- Modelled from the spec: `Date#toISOString` of the external Date
collaborator — renders an epoch-milliseconds timestamp as the ISO-8601 UTC
string `YYYY-MM-DDTHH:MM:SS.sssZ` (faithful to JavaScript for timestamps whose
year has four digits). -/
def toISOString (t : Nat) : String :=
  let days := t / 86400000
  let yd := findYear (days + 1) 1970 days
  let md := findMonth (monthLengths (isLeap yd.1)) 0 yd.2
  String.mk (pad4 yd.1 ++ '-' :: pad2 (md.1 + 1) ++ '-' :: pad2 (md.2 + 1) ++
    'T' :: pad2 (t / 3600000 % 24) ++ ':' :: pad2 (t / 60000 % 60) ++
    ':' :: pad2 (t / 1000 % 60) ++ '.' :: pad3 (t % 1000) ++ ['Z'])

/-- The decimal value of a digit character. -/
def digitVal (c : Char) : Nat := c.toNat - '0'.toNat

/-- Syntactic ISO-8601 UTC timestamp check: shape `YYYY-MM-DDTHH:MM:SS.sssZ`
with a decimal digit in every numeric position and in-range month, day, hour,
minute and second components. -/
def isISO8601UTC (s : String) : Bool :=
  match s.toList with
  | [y1, y2, y3, y4, '-', m1, m2, '-', d1, d2, 'T', h1, h2, ':', n1, n2, ':',
      s1, s2, '.', f1, f2, f3, 'Z'] =>
    ([y1, y2, y3, y4, m1, m2, d1, d2, h1, h2, n1, n2, s1, s2, f1, f2, f3].all
      Char.isDigit) &&
    (let mo := digitVal m1 * 10 + digitVal m2
     let da := digitVal d1 * 10 + digitVal d2
     let ho := digitVal h1 * 10 + digitVal h2
     let mi := digitVal n1 * 10 + digitVal n2
     let se := digitVal s1 * 10 + digitVal s2
     decide (1 ≤ mo) && decide (mo ≤ 12) && decide (1 ≤ da) && decide (da ≤ 31) &&
       decide (ho ≤ 23) && decide (mi ≤ 59) && decide (se ≤ 59))
  | _ => false

/-- The ambient `navigator` collaborator (browser-context metadata). -/
structure NavigatorInfo where
  cookieEnabled : JsValue
  geolocation : JsValue
  language : JsValue
  languages : JsValue
  onLine : JsValue
  userAgent : JsValue
  platform : JsValue
  vendor : JsValue

/-- The navigator metadata object stored on an event (note the key `online`
holding `navigator.onLine`, and `geoLocation` holding `navigator.geolocation`). -/
structure EventNavigator where
  cookieEnabled : JsValue
  geoLocation : JsValue
  language : JsValue
  languages : JsValue
  online : JsValue
  userAgent : JsValue
  platform : JsValue
  vendor : JsValue

/-- The ambient `location` collaborator; the event stores a copy with the same
keys. -/
structure LocationInfo where
  search : JsValue
  pathname : JsValue
  hostname : JsValue
  protocol : JsValue
  port : JsValue
  hash : JsValue
  href : JsValue

/-- The navigator metadata copied onto an event. -/
def copyNavigator (n : NavigatorInfo) : EventNavigator :=
  { cookieEnabled := n.cookieEnabled, geoLocation := n.geolocation,
    language := n.language, languages := n.languages, online := n.onLine,
    userAgent := n.userAgent, platform := n.platform, vendor := n.vendor }

/-- The location metadata copied onto an event. -/
def copyLocation (l : LocationInfo) : LocationInfo :=
  { search := l.search, pathname := l.pathname, hostname := l.hostname,
    protocol := l.protocol, port := l.port, hash := l.hash, href := l.href }

/-- One built Event document (the source's `@timestamp` and `@tags` keys are
the `timestamp` and `tags` fields here). -/
structure Event where
  level : String
  fields : Option JsValue
  message : String
  timestamp : String
  tags : List String
  navigator : Option EventNavigator
  location : Option LocationInfo

/-- The three local console streams (`console.info`, `console.warn`,
`console.error`). -/
inductive ConsoleStream where
  | info
  | warn
  | error
deriving DecidableEq

/-- One line of local console output. -/
structure ConsoleLine where
  stream : ConsoleStream
  text : String
deriving DecidableEq

/-- The first argument of `error`: an `Error` instance (carrying a message and
a stack, satisfying `instanceof Error`) or a plain string message. -/
inductive ErrOrMsg where
  | jsError : String → String → ErrOrMsg
  | plain : String → ErrOrMsg

namespace TsImpl

/-- The `Logstash` constructor body of the TypeScript copy (`src/index.ts`
lines 16-42).  `thisBound = false` models invoking the constructor as a plain
function in strict-mode module code, where `this` is `undefined` and the first
assignment `this.url = url` throws a `TypeError`; `thisBound = true` models a
`new` invocation on a fresh object.  `this.maxRetries || 10` always yields 10
because `maxRetries` is unset on a fresh object. -/
def logstashCtor (thisBound : Bool) (url : Option String) (tags : List String)
    (level : String) (options : Options) : Except JsErr Logstash :=
  if !jsTruthyStr url then .error (.typeError "Invalid URL")
  else if !thisBound then
    .error (.typeError "Cannot set properties of undefined (setting 'url')")
  else .ok {
    url := url.getD ""
    tags := tags
    level := level
    maxRetries := 10
    retryDelay := jsOrNum options.retryDelay 10000
    concurrency := jsOrNum options.concurrency 25
    maxMessagesPerSecond := jsOrNum options.maxMessagesPerSecond 10
    muteConsole := isBoolTrue options.muteConsole }

/-- `create` of the TypeScript copy (`src/index.ts` lines 12-14): it invokes
`Logstash(url, tags, level, options)` without `new`, so the constructor runs
with an unbound `this`. -/
def create (url : Option String) (tags : List String) (level : String)
    (options : Options) : Except JsErr Logstash :=
  logstashCtor false url tags level options

/-- `Logstash.prototype.log` of the TypeScript copy (`src/index.ts` lines
65-117): builds the event (stamping the timestamp, the configured tags and the
optional ambient metadata), enqueues one delivery task for it, and — unless
muted — echoes one local console line, `message` optionally suffixed with
`" - "` and the JSON of the fields when the fields value is truthy.  `now` is
the wall clock in epoch milliseconds.  Returns the enqueued event and the
local console output. -/
def log (self : Logstash) (now : Nat) (nav : Option NavigatorInfo)
    (loc : Option LocationInfo) (level message : String)
    (fields : Option JsValue) : Event × List ConsoleLine :=
  let event : Event := {
    level := level
    fields := fields
    message := message
    timestamp := toISOString now
    tags := self.tags
    navigator := nav.map copyNavigator
    location := loc.map copyLocation }
  if self.muteConsole then (event, [])
  else
    let fieldsStr := if jsTruthyOpt fields then " - " ++ stringifyOpt fields else ""
    let line := message ++ fieldsStr
    match level with
    | "error" => (event, [⟨.error, line⟩])
    | "warn" => (event, [⟨.warn, line⟩])
    | _ => (event, [⟨.info, line⟩])

/-- `Logstash.prototype.debug` of the TypeScript copy (lines 119-121). -/
def debug (self : Logstash) (now : Nat) (nav : Option NavigatorInfo)
    (loc : Option LocationInfo) (message : String) (fields : Option JsValue) :
    Event × List ConsoleLine :=
  log self now nav loc "debug" message fields

/-- `Logstash.prototype.info` of the TypeScript copy (lines 123-125). -/
def info (self : Logstash) (now : Nat) (nav : Option NavigatorInfo)
    (loc : Option LocationInfo) (message : String) (fields : Option JsValue) :
    Event × List ConsoleLine :=
  log self now nav loc "info" message fields

/-- `Logstash.prototype.warn` of the TypeScript copy (lines 127-129). -/
def warn (self : Logstash) (now : Nat) (nav : Option NavigatorInfo)
    (loc : Option LocationInfo) (message : String) (fields : Option JsValue) :
    Event × List ConsoleLine :=
  log self now nav loc "warn" message fields

/-- `Logstash.prototype.error` of the TypeScript copy (lines 131-137): an
`Error` first argument is logged at level "error" with an object-literal
fields merge that spreads the caller's fields first and writes the `stack`
property afterwards, so on a key collision the error's own stack wins; any
other first argument is logged as the message with the fields untouched. -/
def error (self : Logstash) (now : Nat) (nav : Option NavigatorInfo)
    (loc : Option LocationInfo) (err : ErrOrMsg) (fields : Option JsValue) :
    Event × List ConsoleLine :=
  match err with
  | .jsError msg stack =>
      log self now nav loc "error" msg
        (some (.vobj (setKey (entriesOfOpt fields) "stack" (.vstr stack))))
  | .plain s => log self now nav loc "error" s fields

end TsImpl

namespace JsImpl

/-- The `Logstash` constructor body of the plain-JavaScript copy (lines 9-35
of that file); textually the same assignments as the TypeScript copy. -/
def logstashCtor (thisBound : Bool) (url : Option String) (tags : List String)
    (level : String) (options : Options) : Except JsErr Logstash :=
  if !jsTruthyStr url then .error (.typeError "Invalid URL")
  else if !thisBound then
    .error (.typeError "Cannot set properties of undefined (setting 'url')")
  else .ok {
    url := url.getD ""
    tags := tags
    level := level
    maxRetries := 10
    retryDelay := jsOrNum options.retryDelay 10000
    concurrency := jsOrNum options.concurrency 25
    maxMessagesPerSecond := jsOrNum options.maxMessagesPerSecond 10
    muteConsole := isBoolTrue options.muteConsole }

/-- `create` of the plain-JavaScript copy (lines 5-7 of that file): it invokes
`new Logstash(url, tags, level, options)`, binding `this` to a fresh object. -/
def create (url : Option String) (tags : List String) (level : String)
    (options : Options) : Except JsErr Logstash :=
  logstashCtor true url tags level options

/-- `Logstash.prototype.log` of the plain-JavaScript copy (lines 48-100 of
that file); textually the same body as the TypeScript copy's `log`. -/
def log (self : Logstash) (now : Nat) (nav : Option NavigatorInfo)
    (loc : Option LocationInfo) (level message : String)
    (fields : Option JsValue) : Event × List ConsoleLine :=
  let event : Event := {
    level := level
    fields := fields
    message := message
    timestamp := toISOString now
    tags := self.tags
    navigator := nav.map copyNavigator
    location := loc.map copyLocation }
  if self.muteConsole then (event, [])
  else
    let fieldsStr := if jsTruthyOpt fields then " - " ++ stringifyOpt fields else ""
    let line := message ++ fieldsStr
    match level with
    | "error" => (event, [⟨.error, line⟩])
    | "warn" => (event, [⟨.warn, line⟩])
    | _ => (event, [⟨.info, line⟩])

/-- `Logstash.prototype.debug` of the plain-JavaScript copy (lines 102-104). -/
def debug (self : Logstash) (now : Nat) (nav : Option NavigatorInfo)
    (loc : Option LocationInfo) (message : String) (fields : Option JsValue) :
    Event × List ConsoleLine :=
  log self now nav loc "debug" message fields

/-- `Logstash.prototype.info` of the plain-JavaScript copy (lines 106-108). -/
def info (self : Logstash) (now : Nat) (nav : Option NavigatorInfo)
    (loc : Option LocationInfo) (message : String) (fields : Option JsValue) :
    Event × List ConsoleLine :=
  log self now nav loc "info" message fields

/-- `Logstash.prototype.warn` of the plain-JavaScript copy (lines 110-112). -/
def warn (self : Logstash) (now : Nat) (nav : Option NavigatorInfo)
    (loc : Option LocationInfo) (message : String) (fields : Option JsValue) :
    Event × List ConsoleLine :=
  log self now nav loc "warn" message fields

/-- `Logstash.prototype.error` of the plain-JavaScript copy (lines 114-120):
an `Error` first argument is logged at level "error" with fields merged by
`Object.assign` onto a fresh target that already holds the `stack` entry, so
the stack entry comes first and on a key collision the caller's own value
wins; any other first argument is logged as the message with the fields
untouched. -/
def error (self : Logstash) (now : Nat) (nav : Option NavigatorInfo)
    (loc : Option LocationInfo) (err : ErrOrMsg) (fields : Option JsValue) :
    Event × List ConsoleLine :=
  match err with
  | .jsError msg stack =>
      log self now nav loc "error" msg
        (some (.vobj ((entriesOfOpt fields).foldl
          (fun acc kv => setKey acc kv.1 kv.2) [("stack", .vstr stack)])))
  | .plain s => log self now nav loc "error" s fields

end JsImpl

/-! ## The rate-limited retry transport

`axios` and `axios-retry` are external dependencies; the repository only
configures them (`src/index.ts` lines 30-35: `retries = maxRetries`, a
constant `retryDelay`).  The retry loop itself is modelled from the spec
(§4.1): the request is attempted, and on any failure (network error or
non-2xx status, both abstracted as an `Except.error` carrying the error
message) it is retried up to `retries` additional times with the fixed delay
between attempts. -/

/-- The HTTP request `_sendEvent` dispatches (`src/index.ts` lines 45-49). -/
structure HttpRequest where
  url : String
  method : String
  headers : List (String × String)
  data : Event

/-- The request `_sendEvent` builds for an event. -/
def requestOf (self : Logstash) (event : Event) : HttpRequest :=
  { url := self.url, method := "POST",
    headers := [("Content-Type", "application/json")], data := event }

/-- The trace of one transport operation: the start times of the attempts
made (in ms from the start of the operation) and the settled promise value. -/
structure RetryOutcome where
  attemptTimes : List Nat
  result : Except String Unit

/-- Modelled from the spec: the retry loop of the external `axios-retry`
dependency.  `net k` is the environment's response to the attempt with index
`k`; `t` is the current time offset and `remaining` the number of retries
still allowed.  A successful attempt settles the promise; a failed attempt
with retries remaining is followed, after the fixed `delay`, by the next
attempt; a failed attempt with no retries remaining rejects the promise with
the final error. -/
def retryLoop (net : Nat → Except String Unit) (delay : Nat) :
    Nat → Nat → Nat → RetryOutcome
  | k, t, 0 =>
      match net k with
      | .ok u => ⟨[t], .ok u⟩
      | .error e => ⟨[t], .error e⟩
  | k, t, remaining + 1 =>
      match net k with
      | .ok u => ⟨[t], .ok u⟩
      | .error _ =>
          let rest := retryLoop net delay (k + 1) (t + delay) remaining
          ⟨t :: rest.attemptTimes, rest.result⟩

/-- A transport operation as configured by the repository: first attempt at
time 0, `self.maxRetries` retries allowed, `self.retryDelay` ms between
attempts (a negative configured delay degenerates to 0). -/
def clientRequest (self : Logstash) (net : Nat → Except String Unit) :
    RetryOutcome :=
  retryLoop net self.retryDelay.toNat 0 0 self.maxRetries.toNat

/-- How one send operation settles: the event was delivered, or delivery
failed carrying the final error's message. -/
inductive DeliveryOutcome where
  | delivered
  | deliveryFailed : String → DeliveryOutcome
deriving DecidableEq

/-- A settled send operation: the attempt trace, the local warnings emitted,
and the operation's promise — `Except.error` would be an exception propagated
to the caller, which the `catch` handler prevents. -/
structure SendResult where
  request : HttpRequest
  attemptTimes : List Nat
  warnings : List String
  outcome : Except String DeliveryOutcome

/-- A settled promise: the rejection of `p` is handed to `handler` and the
operation resolves with the handler's value (the semantics of
`promise.catch(handler)`). -/
def promiseCatch (p : Except String DeliveryOutcome)
    (handler : String → List String × DeliveryOutcome) :
    List String × Except String DeliveryOutcome :=
  match p with
  | .ok v => ([], .ok v)
  | .error e => ((handler e).1, .ok (handler e).2)

/-- `Logstash.prototype._sendEvent` (`src/index.ts` lines 44-53; textually the
same in the plain-JavaScript copy): POSTs the event via the retrying client
and catches any rejection, emitting one local warning naming the failure and
resolving the operation. -/
def sendEvent (self : Logstash) (event : Event)
    (net : HttpRequest → Nat → Except String Unit) : SendResult :=
  let req := requestOf self event
  let o := clientRequest self (net req)
  let settled := promiseCatch (o.result.map fun _ => .delivered)
    (fun e => (["Could not send message to Logstash - [" ++ e ++ "]"],
      .deliveryFailed e))
  { request := req, attemptTimes := o.attemptTimes,
    warnings := settled.1, outcome := settled.2 }

/-! ## The dispatch queue

`p-queue` is an external dependency; the repository only constructs it
(`src/index.ts` lines 37-41) with `concurrency`, `intervalCap =
maxMessagesPerSecond` and `interval = 1000`.  The queue semantics are
modelled from the spec (§4.2): a FIFO pending list, at most `concurrency`
tasks running at once, at most `intervalCap` task starts within any rolling
`interval`-ms window, delayed tasks never dropped.  Time is discrete in
milliseconds. -/

/-- One enqueued delivery task: an identifier and a duration in ms. -/
structure QTask where
  id : Nat
  dur : Nat

/-- The queue's admission parameters. -/
structure QConfig where
  concurrency : Nat
  intervalCap : Nat
  interval : Nat

/-- The queue the repository constructs for a logger (`interval: 1000`). -/
def queueOf (self : Logstash) : QConfig :=
  { concurrency := self.concurrency.toNat,
    intervalCap := self.maxMessagesPerSecond.toNat, interval := 1000 }

/-- The queue state at one instant: the clock, the pending tasks in FIFO
order, the running tasks as `(finishTime, id)` pairs, and the log of task
starts as `(startTime, id)` pairs, most recent first. -/
structure QState where
  time : Nat
  pending : List QTask
  running : List (Nat × Nat)
  starts : List (Nat × Nat)

/-- The task starts within the rolling window of length `interval` ending at
time `t`, i.e. those with `startTime > t - interval` (starts never exceed the
clock). -/
def windowCount (starts : List (Nat × Nat)) (t interval : Nat) : Nat :=
  (starts.filter fun s => t < s.1 + interval).length

/-- Admission at time `t`: tasks are taken from the head of the pending list
as long as a concurrency slot is free and the rolling window admits another
start; the first task that cannot start blocks the rest (FIFO). -/
def admitLoop (cfg : QConfig) (t : Nat) :
    List QTask → List (Nat × Nat) → List (Nat × Nat) →
    List QTask × List (Nat × Nat) × List (Nat × Nat)
  | [], running, starts => ([], running, starts)
  | task :: rest, running, starts =>
      if running.length < cfg.concurrency ∧
          windowCount starts t cfg.interval < cfg.intervalCap then
        admitLoop cfg t rest ((t + task.dur, task.id) :: running)
          ((t, task.id) :: starts)
      else (task :: rest, running, starts)

/-- One 1-ms step of the queue at the state's clock: finished tasks release
their slots, the tasks arriving now join the tail of the pending list, and
admission runs. -/
def qstep (cfg : QConfig) (arr : Nat → List QTask) (s : QState) : QState :=
  let running := s.running.filter fun r => s.time < r.1
  let pending := s.pending ++ arr s.time
  let a := admitLoop cfg s.time pending running s.starts
  { time := s.time + 1, pending := a.1, running := a.2.1, starts := a.2.2 }

/-- The queue run for `n` ms from the empty initial state, with `arr t` the
tasks enqueued at time `t`. -/
def qrun (cfg : QConfig) (arr : Nat → List QTask) : Nat → QState
  | 0 => ⟨0, [], [], []⟩
  | n + 1 => qstep cfg arr (qrun cfg arr n)

/-- The identifiers of all tasks enqueued strictly before time `t`, in
submission order. -/
def arrivedBy (arr : Nat → List QTask) (t : Nat) : List Nat :=
  (List.range t).flatMap fun u => (arr u).map QTask.id

/-- The identifiers of the tasks started so far, in start order. -/
def startedIds (s : QState) : List Nat := s.starts.reverse.map Prod.snd

/-- The console stream the `switch (level)` of `log` selects: the error level
to the error stream, the warn level to the warning stream, everything else to
the informational stream. -/
def streamOfLevel (level : String) : ConsoleStream :=
  match level with
  | "error" => .error
  | "warn" => .warn
  | _ => .info

/-- A public `log` call together with the later settlement of the delivery
task it enqueued: the caller-visible output (event and console echo) and the
task's settled send result. -/
def logDeliver (self : Logstash) (now : Nat) (nav : Option NavigatorInfo)
    (loc : Option LocationInfo) (level message : String)
    (fields : Option JsValue) (net : HttpRequest → Nat → Except String Unit) :
    (Event × List ConsoleLine) × SendResult :=
  let r := TsImpl.log self now nav loc level message fields
  (r, sendEvent self r.1 net)

/-- A sample logger, as constructed with all option defaults. -/
def sampleLogger : Logstash :=
  { url := "https://logs.example.com:9200", tags := ["env"], level := "info",
    maxRetries := 10, retryDelay := 10000, concurrency := 25,
    maxMessagesPerSecond := 10, muteConsole := false }

/-- A sample logger with the console muted. -/
def sampleLoggerMuted : Logstash :=
  { sampleLogger with muteConsole := true }

/-- A sample built event. -/
def sampleEvent : Event :=
  { level := "info", fields := none, message := "hello",
    timestamp := toISOString 1700000000000, tags := ["env"],
    navigator := none, location := none }

/-- Descending (most-recent-first) ordering of a start log. -/
def StartsSorted (l : List (Nat × Nat)) : Prop :=
  l.Pairwise fun a b => b.1 ≤ a.1

/-- Every suffix of the start log headed by a start at time `x` holds at most
`intervalCap` starts inside the rolling window of length `interval` ending at
`x` — the bound the admission guard enforced when that start was admitted. -/
def GoodLog (cfg : QConfig) (l : List (Nat × Nat)) : Prop :=
  ∀ x rest, (x :: rest) <:+ l →
    windowCount (x :: rest) x.1 cfg.interval ≤ cfg.intervalCap

/-! ## Helper lemmas -/

theorem log_fst_eq (self : Logstash) (now : Nat) (nav : Option NavigatorInfo)
    (loc : Option LocationInfo) (level message : String) (fields : Option JsValue) :
    (TsImpl.log self now nav loc level message fields).1 =
      { level := level, fields := fields, message := message,
        timestamp := toISOString now, tags := self.tags,
        navigator := nav.map copyNavigator, location := loc.map copyLocation } := by
  unfold TsImpl.log
  split
  · rfl
  · split <;> split <;> rfl

theorem log_snd_unmuted (self : Logstash) (h : self.muteConsole = false)
    (now : Nat) (nav : Option NavigatorInfo) (loc : Option LocationInfo)
    (level message : String) (fields : Option JsValue) :
    (TsImpl.log self now nav loc level message fields).2 =
      [⟨streamOfLevel level,
        message ++ if jsTruthyOpt fields then " - " ++ stringifyOpt fields else ""⟩] := by
  unfold TsImpl.log streamOfLevel
  rw [if_neg (by simp [h])]
  split <;> split <;> simp_all

theorem isBoolTrue_iff (v : Option JsValue) :
    isBoolTrue v = true ↔ v = some (.vbool true) := by
  unfold isBoolTrue
  split <;> simp_all

/-! ## Claims -/

/-- C1: construction fails with an invalid-configuration `TypeError` for every
missing or empty URL and performs no other validation (negative numeric
options are accepted as-is) — this holds of the plain-JavaScript copy, whose
`create` uses `new`.  The TypeScript copy's `create`, however, invokes the
constructor without `new`, so in strict-mode module code every call throws a
`TypeError` even for a valid URL and the factory never returns an instance:
the code contradicts the claim there. -/
theorem c1_creation_validation :
    TsImpl.create (some "https://logs.example.com:9200") [] "info" {} =
      .error (.typeError "Cannot set properties of undefined (setting 'url')") ∧
    (∀ url tags level options, (TsImpl.create url tags level options).isOk = false) ∧
    JsImpl.create (some "https://logs.example.com:9200") [] "info" {} =
      .ok { url := "https://logs.example.com:9200", tags := [], level := "info",
            maxRetries := 10, retryDelay := 10000, concurrency := 25,
            maxMessagesPerSecond := 10, muteConsole := false } ∧
    (∀ url tags level options,
      (JsImpl.create url tags level options).isOk = jsTruthyStr url) ∧
    JsImpl.create none [] "info" {} = .error (.typeError "Invalid URL") ∧
    JsImpl.create (some "") [] "info" {} = .error (.typeError "Invalid URL") ∧
    (JsImpl.create (some "https://logs.example.com:9200") ["t"] "info"
        { concurrency := some (-5), maxMessagesPerSecond := some (-1) }).isOk
      = true := by
  refine ⟨rfl, ?_, rfl, ?_, rfl, rfl, rfl⟩
  · intro url tags level options
    unfold TsImpl.create TsImpl.logstashCtor
    cases h : jsTruthyStr url <;> simp [h, Except.isOk, Except.toBool]
  · intro url tags level options
    unfold JsImpl.create JsImpl.logstashCtor
    cases h : jsTruthyStr url <;> simp [h, Except.isOk, Except.toBool]

/-- C5 counterexample: the two copies are not behaviorally equivalent.  On
`error` with an `Error` argument and a caller-supplied `stack` field, the
TypeScript copy keeps the error's own stack (`"S"`) while the
plain-JavaScript copy keeps the caller's value (`"F"`). -/
theorem c5_copies_divergence :
    (TsImpl.error sampleLogger 0 none none (.jsError "boom" "S")
        (some (.vobj [("stack", .vstr "F")]))).1.fields =
      some (.vobj [("stack", .vstr "S")]) ∧
    (JsImpl.error sampleLogger 0 none none (.jsError "boom" "S")
        (some (.vobj [("stack", .vstr "F")]))).1.fields =
      some (.vobj [("stack", .vstr "F")]) ∧
    JsValue.vstr "S" ≠ JsValue.vstr "F" := by
  refine ⟨rfl, rfl, ?_⟩
  intro h
  injection h with h'
  exact absurd h' (by decide)

/-- C5 amended: the two copies agree on `log`, `debug`, `info`, `warn`, on
the constructor body, and on `error` whenever the fields argument is absent
or the first argument is a plain string; they differ in `error`'s fields
merge for an `Error` argument with present fields (stack-entry position and,
on a `stack` key collision, the surviving value) and in `create`: the
TypeScript copy omits `new`, so its factory never yields an instance, while
the plain-JavaScript factory succeeds exactly for non-empty URLs. -/
theorem c5_copies_equivalence_amended :
    TsImpl.log = JsImpl.log ∧
    TsImpl.debug = JsImpl.debug ∧
    TsImpl.info = JsImpl.info ∧
    TsImpl.warn = JsImpl.warn ∧
    TsImpl.logstashCtor = JsImpl.logstashCtor ∧
    (∀ self now nav loc err,
      TsImpl.error self now nav loc err none = JsImpl.error self now nav loc err none) ∧
    (∀ self now nav loc s fields,
      TsImpl.error self now nav loc (.plain s) fields =
        JsImpl.error self now nav loc (.plain s) fields) ∧
    (∀ url tags level options, (TsImpl.create url tags level options).isOk = false) ∧
    (∀ url tags level options,
      (JsImpl.create url tags level options).isOk = jsTruthyStr url) := by
  refine ⟨rfl, rfl, rfl, rfl, rfl, ?_, fun _ _ _ _ _ _ => rfl, ?_, ?_⟩
  · intro self now nav loc err
    cases err <;> rfl
  · intro url tags level options
    unfold TsImpl.create TsImpl.logstashCtor
    cases h : jsTruthyStr url <;> simp [h, Except.isOk, Except.toBool]
  · intro url tags level options
    unfold JsImpl.create JsImpl.logstashCtor
    cases h : jsTruthyStr url <;> simp [h, Except.isOk, Except.toBool]

/-- C8 counterexample: a present but falsy fields value (the number 0)
produces a bare message line with no JSON suffix, though the claim requires
the suffix exactly when fields are present. -/
theorem c8_falsy_fields_no_suffix :
    (TsImpl.log sampleLogger 0 none none "info" "m" (some (.vnum 0))).2 =
      [⟨ConsoleStream.info, "m"⟩] ∧
    ("m" : String) ≠ "m" ++ " - " ++ stringify (.vnum 0) := by
  exact ⟨rfl, by decide⟩

/-- C8 amended: for every unmuted log call, exactly one local line is written
to the stream chosen by the level (error level to the error stream, warn
level to the warning stream, everything else to the informational stream),
and the line is the message, suffixed with " - " and the fields as compact
JSON exactly when the fields value is present and truthy. -/
theorem c8_local_echo_amended (self : Logstash) (h : self.muteConsole = false)
    (now : Nat) (nav : Option NavigatorInfo) (loc : Option LocationInfo)
    (level message : String) (fields : Option JsValue) :
    (TsImpl.log self now nav loc level message fields).2 =
      [⟨streamOfLevel level,
        message ++ if jsTruthyOpt fields then " - " ++ stringifyOpt fields else ""⟩] ∧
    streamOfLevel "error" = .error ∧ streamOfLevel "warn" = .warn ∧
    ∀ l, l ≠ "error" → l ≠ "warn" → streamOfLevel l = .info := by
  refine ⟨log_snd_unmuted self h now nav loc level message fields, rfl, rfl, ?_⟩
  intro l h1 h2
  unfold streamOfLevel
  split <;> simp_all

/-- Witness for C8: evaluating the amended claim at a concrete unmuted
warn-level call with absent fields. -/
theorem c8_local_echo_amended_witness :
    (TsImpl.log sampleLogger 0 none none "warn" "hello" none).2 =
      [⟨streamOfLevel "warn",
        "hello" ++ if jsTruthyOpt none then " - " ++ stringifyOpt none else ""⟩] :=
  (c8_local_echo_amended sampleLogger rfl 0 none none "warn" "hello" none).1

/-- C9: with `muteConsole` set, no local console output is produced by any
log call, while the built (and enqueued) Event is the same one the unmuted
configuration builds. -/
theorem c9_mute_frame (self : Logstash) (h : self.muteConsole = true) (now : Nat)
    (nav : Option NavigatorInfo) (loc : Option LocationInfo)
    (level message : String) (fields : Option JsValue) :
    (TsImpl.log self now nav loc level message fields).2 = [] ∧
    (TsImpl.log self now nav loc level message fields).1 =
      (TsImpl.log { self with muteConsole := false } now nav loc level message
        fields).1 := by
  constructor
  · simp [TsImpl.log, h]
  · rw [log_fst_eq, log_fst_eq]

/-- Witness for C9: evaluating the claim at a concrete muted logger. -/
theorem c9_mute_frame_witness :
    (TsImpl.log sampleLoggerMuted 0 none none "info" "hello" none).2 = [] ∧
    (TsImpl.log sampleLoggerMuted 0 none none "info" "hello" none).1 =
      (TsImpl.log { sampleLoggerMuted with muteConsole := false } 0 none none
        "info" "hello" none).1 :=
  c9_mute_frame sampleLoggerMuted rfl 0 none none "info" "hello" none

theorem lookupKey_append_cases (es1 es2 : List (String × JsValue)) (key : String) :
    lookupKey (es1 ++ es2) key =
      match lookupKey es1 key with
      | some v => some v
      | none => lookupKey es2 key := by
  induction es1 with
  | nil => simp [lookupKey]
  | cons p rest ih =>
    obtain ⟨k, w⟩ := p
    by_cases hk : k = key <;> simp [lookupKey, hk, ih]

theorem lookupKey_none_of_not_any (es : List (String × JsValue)) (key : String)
    (h : es.any (fun p => p.1 = key) = false) : lookupKey es key = none := by
  induction es with
  | nil => rfl
  | cons p rest ih =>
    obtain ⟨k, w⟩ := p
    rw [List.any_cons] at h
    simp only [Bool.or_eq_false_iff, decide_eq_false_iff_not] at h
    simp [lookupKey, h.1, ih (by simpa using h.2)]

theorem lookupKey_map_set (key : String) (v : JsValue)
    (es : List (String × JsValue)) (h : es.any (fun p => p.1 = key) = true) :
    lookupKey (es.map fun p => if p.1 = key then (key, v) else p) key = some v := by
  induction es with
  | nil => simp at h
  | cons p rest ih =>
    obtain ⟨k, w⟩ := p
    rw [List.any_cons] at h
    by_cases hk : k = key
    · subst hk
      simp only [List.map_cons]
      simp [lookupKey]
    · have hrest : rest.any (fun p => p.1 = key) = true := by simpa [hk] using h
      simp only [List.map_cons]
      rw [show (if (k, w).1 = key then (key, v) else (k, w)) = (k, w) from
        if_neg hk]
      simp [lookupKey, hk, ih hrest]

theorem lookupKey_setKey_self (es : List (String × JsValue)) (key : String)
    (v : JsValue) : lookupKey (setKey es key v) key = some v := by
  unfold setKey
  split
  case isTrue h => exact lookupKey_map_set key v es h
  case isFalse h =>
    rw [lookupKey_append_cases,
      lookupKey_none_of_not_any es key (Bool.eq_false_iff.mpr h)]
    simp [lookupKey]

theorem lookupKey_setKey_other (es : List (String × JsValue)) (key k' : String)
    (v : JsValue) (h : k' ≠ key) :
    lookupKey (setKey es key v) k' = lookupKey es k' := by
  unfold setKey
  split
  case isTrue hh =>
    clear hh
    induction es with
    | nil => rfl
    | cons p rest ih =>
      obtain ⟨k, w⟩ := p
      simp only [List.map_cons]
      by_cases hk : k = key
      · subst hk
        rw [show (if (k, w).1 = k then (k, v) else (k, w)) = (k, v) from
          if_pos rfl]
        simp [lookupKey, Ne.symm h, ih]
      · rw [show (if (k, w).1 = key then (key, v) else (k, w)) = (k, w) from
          if_neg hk]
        by_cases hkk : k = k'
        · subst hkk
          simp [lookupKey, ih]
        · simp [lookupKey, hkk, ih]
  case isFalse hh =>
    rw [lookupKey_append_cases]
    cases hl : lookupKey es k'
    · simp [lookupKey, Ne.symm h]
    · simp

/-- C6 counterexample: with a caller-supplied `stack` field, the fields built
by `error` on an `Error` argument do not contain the caller's entry: in the
TypeScript copy the error's own stack (`"S"`) displaces the caller's value
(`"F"`), so the claimed "every caller-supplied entry" is violated. -/
theorem c6_error_stack_collision :
    lookupKey (entriesOfOpt (TsImpl.error sampleLogger 0 none none
        (.jsError "boom" "S") (some (.vobj [("stack", .vstr "F")]))).1.fields)
      "stack" = some (.vstr "S") ∧
    JsValue.vstr "S" ≠ JsValue.vstr "F" := by
  refine ⟨rfl, ?_⟩
  intro h
  injection h with h'
  exact absurd h' (by decide)

/-- C6 amended: `error` on an `Error`-instance argument is `log("error",
e.message, fields with the stack entry written onto them)`; the merged fields
hold the error's stack under `"stack"` and every caller-supplied entry whose
key is not `"stack"` (on a `"stack"` collision the error's stack wins in the
TypeScript copy, while the plain-JavaScript copy keeps the caller's value);
`error` on a plain string is `log("error", s, fields)` with the fields
untouched. -/
theorem c6_error_merge_amended (self : Logstash) (now : Nat)
    (nav : Option NavigatorInfo) (loc : Option LocationInfo)
    (msg stack : String) (es : List (String × JsValue)) :
    TsImpl.error self now nav loc (.jsError msg stack) (some (.vobj es)) =
      TsImpl.log self now nav loc "error" msg
        (some (.vobj (setKey es "stack" (.vstr stack)))) ∧
    lookupKey (setKey es "stack" (.vstr stack)) "stack" = some (.vstr stack) ∧
    (∀ k, k ≠ "stack" →
      lookupKey (setKey es "stack" (.vstr stack)) k = lookupKey es k) ∧
    (∀ s fields, TsImpl.error self now nav loc (.plain s) fields =
      TsImpl.log self now nav loc "error" s fields) := by
  refine ⟨rfl, lookupKey_setKey_self es "stack" (.vstr stack), ?_,
    fun _ _ => rfl⟩
  intro k hk
  exact lookupKey_setKey_other es "stack" k (.vstr stack) hk

/-- Witness for C6: the merged fields of
`error(new Error("boom") with stack "trace", extra-fields)` hold the stack
string and the untouched `extra` entry. -/
theorem c6_error_merge_amended_witness :
    lookupKey (setKey [("extra", JsValue.vnum 1)] "stack" (.vstr "trace"))
      "stack" = some (.vstr "trace") ∧
    lookupKey (setKey [("extra", JsValue.vnum 1)] "stack" (.vstr "trace"))
      "extra" = lookupKey [("extra", JsValue.vnum 1)] "extra" :=
  ⟨(c6_error_merge_amended sampleLogger 0 none none "boom" "trace"
      [("extra", .vnum 1)]).2.1,
   (c6_error_merge_amended sampleLogger 0 none none "boom" "trace"
      [("extra", .vnum 1)]).2.2.1 "extra" (by decide)⟩

/-- C10: a constructed logger is muted exactly when the `muteConsole` option
is the boolean value `true`; for any other option value (including truthy
non-booleans such as the number 1) the logger is unmuted and every log call
produces exactly one local console line. -/
theorem c10_mute_strict_true (url : Option String) (tags : List String)
    (level : String) (options : Options) (self : Logstash)
    (h : JsImpl.create url tags level options = .ok self) :
    (self.muteConsole = true ↔ options.muteConsole = some (.vbool true)) ∧
    (options.muteConsole ≠ some (.vbool true) →
      ∀ now nav loc lv msg fields,
        (JsImpl.log self now nav loc lv msg fields).2.length = 1) := by
  unfold JsImpl.create JsImpl.logstashCtor at h
  by_cases hu : jsTruthyStr url = true
  · rw [if_neg (by simp [hu]), if_neg (by simp)] at h
    have hrec := Except.ok.inj h
    subst hrec
    constructor
    · exact isBoolTrue_iff options.muteConsole
    · intro hne now nav loc lv msg fields
      have hb : isBoolTrue options.muteConsole = false := by
        cases hb : isBoolTrue options.muteConsole
        · rfl
        · exact absurd ((isBoolTrue_iff _).mp hb) hne
      rw [show JsImpl.log = TsImpl.log from rfl, log_snd_unmuted _ hb]
      rfl
  · rw [if_pos (by simp [hu])] at h
    simp at h

/-- Witness for C10: constructing with `muteConsole: 1` (truthy but not the
boolean `true`) yields an unmuted logger whose log call echoes one line. -/
theorem c10_mute_strict_true_witness :
    (({ url := "https://logs.example.com:9200", tags := [], level := "info",
        maxRetries := 10, retryDelay := 10000, concurrency := 25,
        maxMessagesPerSecond := 10, muteConsole := false } : Logstash).muteConsole
        = true ↔
      ({ muteConsole := some (.vnum 1) } : Options).muteConsole =
        some (.vbool true)) ∧
    (JsImpl.log
      { url := "https://logs.example.com:9200", tags := [], level := "info",
        maxRetries := 10, retryDelay := 10000, concurrency := 25,
        maxMessagesPerSecond := 10, muteConsole := false }
      0 none none "info" "m" none).2.length = 1 :=
  ⟨(c10_mute_strict_true (some "https://logs.example.com:9200") [] "info"
      { muteConsole := some (.vnum 1) } _ rfl).1,
   (c10_mute_strict_true (some "https://logs.example.com:9200") [] "info"
      { muteConsole := some (.vnum 1) } _ rfl).2 (by simp) 0 none none
     "info" "m" none⟩

theorem range_map_shift (delay : Nat) : ∀ n t,
    (List.range (n + 1)).map (fun i => t + i * delay) =
      t :: (List.range n).map (fun i => t + delay + i * delay) := by
  intro n
  induction n with
  | zero =>
    intro t
    rw [show List.range 1 = [0] from rfl]
    simp
  | succ m ih =>
    intro t
    rw [List.range_succ, List.map_append, ih t, List.range_succ, List.map_append]
    simp
    ring

theorem retryLoop_allFail (net : Nat → Except String Unit) (errOf : Nat → String)
    (hfail : ∀ k, net k = .error (errOf k)) (delay : Nat) :
    ∀ remaining k t, retryLoop net delay k t remaining =
      ⟨(List.range (remaining + 1)).map (fun i => t + i * delay),
       .error (errOf (k + remaining))⟩ := by
  intro remaining
  induction remaining with
  | zero =>
    intro k t
    unfold retryLoop
    rw [hfail k]
    simp [List.range_succ]
  | succ n ih =>
    intro k t
    unfold retryLoop
    rw [hfail k]
    simp only []
    rw [ih (k + 1) (t + delay)]
    simp only [RetryOutcome.mk.injEq]
    constructor
    · exact (range_map_shift delay (n + 1) t).symm
    · rw [show k + 1 + n = k + (n + 1) from by omega]

theorem retryLoop_length_le (net : Nat → Except String Unit) (delay : Nat) :
    ∀ remaining k t,
      (retryLoop net delay k t remaining).attemptTimes.length ≤ remaining + 1 := by
  intro remaining
  induction remaining with
  | zero =>
    intro k t
    unfold retryLoop
    cases h : net k <;> simp [h]
  | succ n ih =>
    intro k t
    unfold retryLoop
    cases h : net k
    · simp only [h, List.length_cons]
      have := ih (k + 1) (t + delay)
      simp
      omega
    · simp [h]

theorem sendEvent_eq (self : Logstash) (event : Event)
    (net : HttpRequest → Nat → Except String Unit) :
    sendEvent self event net =
      match clientRequest self (net (requestOf self event)) with
      | ⟨times, .ok _⟩ => ⟨requestOf self event, times, [], .ok .delivered⟩
      | ⟨times, .error e⟩ => ⟨requestOf self event, times,
          ["Could not send message to Logstash - [" ++ e ++ "]"],
          .ok (.deliveryFailed e)⟩ := by
  unfold sendEvent promiseCatch
  cases h : clientRequest self (net (requestOf self event)) with
  | mk times result =>
    cases result <;> simp [h, Except.map]

/-- C2: for every event, a send operation POSTs the request built for the
event and retries on failure with a fixed `retryDelay` between attempts; with
an always-failing transport it makes exactly `maxRetries + 1` attempts at
times 0, retryDelay, 2·retryDelay, …, then abandons the event with exactly
one local warning carrying the final error, and no transport ever yields more
than `maxRetries + 1` attempts. -/
theorem c2_transport_retry_exhaustion (self : Logstash) (event : Event)
    (net : HttpRequest → Nat → Except String Unit) (errOf : Nat → String)
    (hfail : ∀ k, net (requestOf self event) k = .error (errOf k)) :
    (sendEvent self event net).attemptTimes =
      (List.range (self.maxRetries.toNat + 1)).map
        (fun i => i * self.retryDelay.toNat) ∧
    (sendEvent self event net).attemptTimes.length = self.maxRetries.toNat + 1 ∧
    (sendEvent self event net).warnings =
      ["Could not send message to Logstash - [" ++
        errOf self.maxRetries.toNat ++ "]"] ∧
    (sendEvent self event net).outcome =
      .ok (.deliveryFailed (errOf self.maxRetries.toNat)) ∧
    (sendEvent self event net).request =
      { url := self.url, method := "POST",
        headers := [("Content-Type", "application/json")], data := event } ∧
    (∀ net2 : HttpRequest → Nat → Except String Unit,
      (sendEvent self event net2).attemptTimes.length ≤
        self.maxRetries.toNat + 1) := by
  have hc : clientRequest self (net (requestOf self event)) =
      ⟨(List.range (self.maxRetries.toNat + 1)).map
        (fun i => i * self.retryDelay.toNat),
       .error (errOf self.maxRetries.toNat)⟩ := by
    unfold clientRequest
    rw [retryLoop_allFail _ errOf hfail _ _ 0 0]
    simp
  rw [sendEvent_eq, hc]
  refine ⟨rfl, by simp, rfl, rfl, rfl, ?_⟩
  intro net2
  rw [sendEvent_eq]
  cases h2 : clientRequest self (net2 (requestOf self event)) with
  | mk times result =>
    have hlen : times.length ≤ self.maxRetries.toNat + 1 := by
      have := retryLoop_length_le (net2 (requestOf self event))
        self.retryDelay.toNat self.maxRetries.toNat 0 0
      unfold clientRequest at h2
      rw [h2] at this
      exact this
    cases result <;> simpa using hlen

/-- Witness for C2: a transport that always fails with "ECONNREFUSED" against
the default-configured logger makes exactly 11 attempts 10000 ms apart and
emits one warning. -/
theorem c2_transport_retry_exhaustion_witness :
    (sendEvent sampleLogger sampleEvent fun _ _ => .error "ECONNREFUSED").attemptTimes =
      (List.range (sampleLogger.maxRetries.toNat + 1)).map
        (fun i => i * sampleLogger.retryDelay.toNat) ∧
    (sendEvent sampleLogger sampleEvent
        fun _ _ => .error "ECONNREFUSED").attemptTimes.length =
      sampleLogger.maxRetries.toNat + 1 ∧
    (sendEvent sampleLogger sampleEvent fun _ _ => .error "ECONNREFUSED").warnings =
      ["Could not send message to Logstash - [" ++ "ECONNREFUSED" ++ "]"] ∧
    (sendEvent sampleLogger sampleEvent fun _ _ => .error "ECONNREFUSED").outcome =
      .ok (.deliveryFailed "ECONNREFUSED") ∧
    (sendEvent sampleLogger sampleEvent fun _ _ => .error "ECONNREFUSED").request =
      { url := sampleLogger.url, method := "POST",
        headers := [("Content-Type", "application/json")], data := sampleEvent } ∧
    (∀ net2 : HttpRequest → Nat → Except String Unit,
      (sendEvent sampleLogger sampleEvent net2).attemptTimes.length ≤
        sampleLogger.maxRetries.toNat + 1) :=
  c2_transport_retry_exhaustion sampleLogger sampleEvent
    (fun _ _ => .error "ECONNREFUSED") (fun _ => "ECONNREFUSED")
    (fun _ => rfl)

/-- C4: the send operation of an enqueued delivery task always resolves (the
`catch` swallows every transport rejection), so no public logging call can
propagate a transport or queue error; when the retrying client finally fails,
the task resolves to a delivery-failed outcome carrying the final error's
message, after exactly one local warning. -/
theorem c4_failures_swallowed (self : Logstash) (now : Nat)
    (nav : Option NavigatorInfo) (loc : Option LocationInfo)
    (level message : String) (fields : Option JsValue)
    (net : HttpRequest → Nat → Except String Unit) :
    (logDeliver self now nav loc level message fields net).2.outcome.isOk = true ∧
    (∀ e, (clientRequest self (net (requestOf self
          (logDeliver self now nav loc level message fields net).1.1))).result =
        .error e →
      (logDeliver self now nav loc level message fields net).2.outcome =
          .ok (.deliveryFailed e) ∧
        (logDeliver self now nav loc level message fields net).2.warnings =
          ["Could not send message to Logstash - [" ++ e ++ "]"]) := by
  have hld : logDeliver self now nav loc level message fields net =
      (TsImpl.log self now nav loc level message fields,
       sendEvent self (TsImpl.log self now nav loc level message fields).1 net) :=
    rfl
  rw [hld]
  constructor
  · rw [sendEvent_eq]
    cases h : clientRequest self (net (requestOf self
        (TsImpl.log self now nav loc level message fields).1)) with
    | mk times result =>
      cases result <;> simp [Except.isOk, Except.toBool]
  · intro e he
    rw [sendEvent_eq]
    cases h : clientRequest self (net (requestOf self
        (TsImpl.log self now nav loc level message fields).1)) with
    | mk times result =>
      rw [h] at he
      simp only at he
      subst he
      exact ⟨rfl, rfl⟩

/-- Witness for C4: the always-failing transport against the sample logger
resolves to the delivery-failed outcome with one warning. -/
theorem c4_failures_swallowed_witness :
    (logDeliver sampleLogger 0 none none "info" "m" none
        fun _ _ => .error "ECONNREFUSED").2.outcome =
      .ok (.deliveryFailed "ECONNREFUSED") ∧
    (logDeliver sampleLogger 0 none none "info" "m" none
        fun _ _ => .error "ECONNREFUSED").2.warnings =
      ["Could not send message to Logstash - [" ++ "ECONNREFUSED" ++ "]"] :=
  (c4_failures_swallowed sampleLogger 0 none none "info" "m" none
    (fun _ _ => .error "ECONNREFUSED")).2 "ECONNREFUSED" rfl

theorem digitChar_isDigit (n : Nat) : (digitChar n).isDigit = true := by
  have h : ∀ d : Fin 10, (Nat.digitChar d.val).isDigit = true := by decide
  exact h ⟨n % 10, Nat.mod_lt _ (by decide)⟩

theorem digitVal_digitChar (n : Nat) : digitVal (digitChar n) = n % 10 := by
  have h : ∀ d : Fin 10, digitVal (Nat.digitChar d.val) = d.val := by decide
  exact h ⟨n % 10, Nat.mod_lt _ (by decide)⟩

theorem isISO8601UTC_mk (y1 y2 y3 y4 m1 m2 d1 d2 h1 h2 n1 n2 s1 s2 f1 f2 f3 : Char) :
    isISO8601UTC (String.mk [y1, y2, y3, y4, '-', m1, m2, '-', d1, d2, 'T',
      h1, h2, ':', n1, n2, ':', s1, s2, '.', f1, f2, f3, 'Z']) =
    (([y1, y2, y3, y4, m1, m2, d1, d2, h1, h2, n1, n2, s1, s2, f1, f2, f3].all
      Char.isDigit) &&
    (let mo := digitVal m1 * 10 + digitVal m2
     let da := digitVal d1 * 10 + digitVal d2
     let ho := digitVal h1 * 10 + digitVal h2
     let mi := digitVal n1 * 10 + digitVal n2
     let se := digitVal s1 * 10 + digitVal s2
     decide (1 ≤ mo) && decide (mo ≤ 12) && decide (1 ≤ da) && decide (da ≤ 31) &&
       decide (ho ≤ 23) && decide (mi ≤ 59) && decide (se ≤ 59))) := rfl

theorem findYear_doy_lt (fuel : Nat) : ∀ y d, d ≤ 365 * fuel →
    (findYear fuel y d).2 < daysInYear (findYear fuel y d).1 := by
  induction fuel with
  | zero =>
    intro y d h
    have hd : d = 0 := by omega
    subst hd
    unfold findYear daysInYear
    split <;> omega
  | succ n ih =>
    intro y d h
    unfold findYear
    split
    case isTrue hlt => simpa using hlt
    case isFalse hge =>
      apply ih
      have hdy : 365 ≤ daysInYear y := by
        unfold daysInYear
        split <;> omega
      omega

theorem findMonth_bounds : ∀ (months : List Nat) (m d : Nat),
    d < months.sum → (∀ x ∈ months, x ≤ 31) →
    (findMonth months m d).1 < m + months.length ∧
      (findMonth months m d).2 < 31 := by
  intro months
  induction months with
  | nil =>
    intro m d h _
    simp at h
  | cons len rest ih =>
    intro m d h hall
    unfold findMonth
    split
    case isTrue hlt =>
      have hl31 : len ≤ 31 := hall len (by simp)
      constructor
      · simp only [List.length_cons]
        omega
      · simp only []
        omega
    case isFalse hge =>
      have hsum : d - len < rest.sum := by
        simp only [List.sum_cons] at h
        omega
      have hr := ih (m + 1) (d - len) hsum (fun x hx => hall x (by simp [hx]))
      constructor
      · have := hr.1
        simp only [List.length_cons]
        omega
      · exact hr.2

theorem monthLengths_sum (y : Nat) :
    (monthLengths (isLeap y)).sum = daysInYear y := by
  unfold daysInYear
  cases h : isLeap y <;> simp [monthLengths]

theorem monthLengths_le31 (b : Bool) : ∀ x ∈ monthLengths b, x ≤ 31 := by
  cases b <;> decide

theorem toISOString_iso (t : Nat) : isISO8601UTC (toISOString t) = true := by
  have hmain : ∀ y doy, doy < daysInYear y →
      isISO8601UTC (String.mk (pad4 y ++ '-' ::
        pad2 ((findMonth (monthLengths (isLeap y)) 0 doy).1 + 1) ++ '-' ::
        pad2 ((findMonth (monthLengths (isLeap y)) 0 doy).2 + 1) ++
        'T' :: pad2 (t / 3600000 % 24) ++ ':' :: pad2 (t / 60000 % 60) ++
        ':' :: pad2 (t / 1000 % 60) ++ '.' :: pad3 (t % 1000) ++ ['Z'])) =
        true := by
    intro y doy hdoy
    have hmb := findMonth_bounds (monthLengths (isLeap y)) 0 doy
      (by rw [monthLengths_sum]; exact hdoy) (monthLengths_le31 _)
    have hm1 : (findMonth (monthLengths (isLeap y)) 0 doy).1 < 12 := by
      have hlen : (monthLengths (isLeap y)).length = 12 := by
        cases isLeap y <;> rfl
      have := hmb.1
      omega
    have hm2 : (findMonth (monthLengths (isLeap y)) 0 doy).2 < 31 := hmb.2
    rw [show (pad4 y ++ '-' ::
        pad2 ((findMonth (monthLengths (isLeap y)) 0 doy).1 + 1) ++ '-' ::
        pad2 ((findMonth (monthLengths (isLeap y)) 0 doy).2 + 1) ++
        'T' :: pad2 (t / 3600000 % 24) ++ ':' :: pad2 (t / 60000 % 60) ++
        ':' :: pad2 (t / 1000 % 60) ++ '.' :: pad3 (t % 1000) ++ ['Z']) =
      [digitChar (y / 1000), digitChar (y / 100), digitChar (y / 10),
       digitChar y, '-',
       digitChar (((findMonth (monthLengths (isLeap y)) 0 doy).1 + 1) / 10),
       digitChar ((findMonth (monthLengths (isLeap y)) 0 doy).1 + 1), '-',
       digitChar (((findMonth (monthLengths (isLeap y)) 0 doy).2 + 1) / 10),
       digitChar ((findMonth (monthLengths (isLeap y)) 0 doy).2 + 1), 'T',
       digitChar (t / 3600000 % 24 / 10), digitChar (t / 3600000 % 24), ':',
       digitChar (t / 60000 % 60 / 10), digitChar (t / 60000 % 60), ':',
       digitChar (t / 1000 % 60 / 10), digitChar (t / 1000 % 60), '.',
       digitChar (t % 1000 / 100), digitChar (t % 1000 / 10),
       digitChar (t % 1000), 'Z'] from rfl]
    rw [isISO8601UTC_mk]
    simp only [List.all_cons, List.all_nil, digitChar_isDigit, Bool.and_true,
      Bool.true_and, digitVal_digitChar, Bool.and_eq_true, decide_eq_true_eq]
    omega
  unfold toISOString
  exact hmain (findYear (t / 86400000 + 1) 1970 (t / 86400000)).1
    (findYear (t / 86400000 + 1) 1970 (t / 86400000)).2
    (findYear_doy_lt (t / 86400000 + 1) 1970 (t / 86400000) (by omega))

/-- C7: every Event built by `log` carries a timestamp stamped at build time
(the ISO rendering of the wall clock at the call) that parses as an ISO-8601
UTC timestamp, and a tags value equal to the configured tags at build time;
the modelled `Date#toISOString` is faithful for wall-clock times whose year
has four digits, which the hypothesis ensures. -/
theorem c7_event_timestamp_tags (self : Logstash) (now : Nat)
    (_hnow : now < 253402300800000) (nav : Option NavigatorInfo)
    (loc : Option LocationInfo) (level message : String)
    (fields : Option JsValue) :
    (TsImpl.log self now nav loc level message fields).1.timestamp =
      toISOString now ∧
    isISO8601UTC
        (TsImpl.log self now nav loc level message fields).1.timestamp = true ∧
    (TsImpl.log self now nav loc level message fields).1.tags = self.tags := by
  rw [log_fst_eq]
  exact ⟨rfl, toISOString_iso now, rfl⟩

/-- Witness for C7: the event built at epoch-ms 1700000000000 carries that
instant's ISO-8601 timestamp and the configured tags. -/
theorem c7_event_timestamp_tags_witness :
    (TsImpl.log sampleLogger 1700000000000 none none "info" "hello"
        none).1.timestamp = toISOString 1700000000000 ∧
    isISO8601UTC (TsImpl.log sampleLogger 1700000000000 none none "info"
        "hello" none).1.timestamp = true ∧
    (TsImpl.log sampleLogger 1700000000000 none none "info" "hello"
        none).1.tags = sampleLogger.tags :=
  c7_event_timestamp_tags sampleLogger 1700000000000 (by decide) none none
    "info" "hello" none

theorem filter_length_mono {α : Type} (l : List α) (p q : α → Bool)
    (h : ∀ a ∈ l, p a = true → q a = true) :
    (l.filter p).length ≤ (l.filter q).length := by
  induction l with
  | nil => simp
  | cons x rest ih =>
    have hrest := ih (fun a ha hpa => h a (by simp [ha]) hpa)
    cases hp : p x
    · cases hq : q x
      · rw [List.filter_cons_of_neg (by simp [hp]),
          List.filter_cons_of_neg (by simp [hq])]
        exact hrest
      · rw [List.filter_cons_of_neg (by simp [hp]),
          List.filter_cons_of_pos (by simp [hq])]
        simp only [List.length_cons]
        omega
    · rw [List.filter_cons_of_pos (by simp [hp]),
        List.filter_cons_of_pos (by simp [h x (by simp) hp])]
      simp only [List.length_cons]
      omega

theorem admitLoop_running_le (cfg : QConfig) (t : Nat) :
    ∀ pending running starts, running.length ≤ cfg.concurrency →
      (admitLoop cfg t pending running starts).2.1.length ≤ cfg.concurrency := by
  intro pending
  induction pending with
  | nil =>
    intro running starts h
    simpa [admitLoop] using h
  | cons task rest ih =>
    intro running starts h
    unfold admitLoop
    split
    case isTrue hg =>
      apply ih
      simp only [List.length_cons]
      omega
    case isFalse hg => simpa using h

theorem admitLoop_fifo (cfg : QConfig) (t : Nat) :
    ∀ pending running starts,
      ((admitLoop cfg t pending running starts).2.2).reverse.map Prod.snd ++
        ((admitLoop cfg t pending running starts).1).map QTask.id =
      starts.reverse.map Prod.snd ++ pending.map QTask.id := by
  intro pending
  induction pending with
  | nil =>
    intro running starts
    simp [admitLoop]
  | cons task rest ih =>
    intro running starts
    unfold admitLoop
    split
    case isTrue hg =>
      rw [ih]
      simp
    case isFalse hg => simp

theorem arrivedBy_succ (arr : Nat → List QTask) (n : Nat) :
    arrivedBy arr (n + 1) = arrivedBy arr n ++ (arr n).map QTask.id := by
  unfold arrivedBy
  rw [List.range_succ, List.flatMap_append]
  simp

theorem admitLoop_starts_inv (cfg : QConfig) (t : Nat) :
    ∀ pending running starts,
      (∀ s ∈ starts, s.1 ≤ t) → StartsSorted starts → GoodLog cfg starts →
      (∀ s ∈ (admitLoop cfg t pending running starts).2.2, s.1 ≤ t) ∧
        StartsSorted (admitLoop cfg t pending running starts).2.2 ∧
        GoodLog cfg (admitLoop cfg t pending running starts).2.2 := by
  intro pending
  induction pending with
  | nil =>
    intro running starts h1 h2 h3
    exact ⟨h1, h2, h3⟩
  | cons task rest ih =>
    intro running starts h1 h2 h3
    unfold admitLoop
    split
    case isTrue hg =>
      apply ih
      · intro s hs
        rcases List.mem_cons.mp hs with hs | hs
        · rw [hs]
        · exact h1 s hs
      · exact List.Pairwise.cons (fun b hb => h1 b hb) h2
      · intro x restx hsuf
        rcases List.suffix_cons_iff.mp hsuf with hwhole | htail
        · obtain ⟨hx, hr⟩ := List.cons_eq_cons.mp hwhole
          rw [hx, hr]
          show windowCount ((t, task.id) :: starts) t cfg.interval ≤
            cfg.intervalCap
          have hw : windowCount starts t cfg.interval < cfg.intervalCap := hg.2
          unfold windowCount at hw ⊢
          by_cases hi : t < t + cfg.interval
          · rw [List.filter_cons_of_pos (by simpa using hi)]
            simp only [List.length_cons]
            omega
          · rw [List.filter_cons_of_neg (by simpa using hi)]
            omega
        · exact h3 x restx htail
    case isFalse hg => exact ⟨h1, h2, h3⟩

theorem window_bound (cfg : QConfig) :
    ∀ l : List (Nat × Nat), StartsSorted l → GoodLog cfg l → ∀ a,
      (l.filter fun s => a < s.1 ∧ s.1 ≤ a + cfg.interval).length ≤
        cfg.intervalCap := by
  intro l
  induction l with
  | nil =>
    intro _ _ a
    simp
  | cons x rest ih =>
    intro hs hg a
    have htail_sorted : StartsSorted rest := List.Pairwise.of_cons hs
    have htail_good : GoodLog cfg rest := fun z rz hsub =>
      hg z rz (hsub.trans (List.suffix_cons x rest))
    by_cases hx : x.1 ≤ a + cfg.interval
    · have hfull : windowCount (x :: rest) x.1 cfg.interval ≤ cfg.intervalCap :=
        hg x rest (List.suffix_refl _)
      have hmono : ((x :: rest).filter fun s =>
            a < s.1 ∧ s.1 ≤ a + cfg.interval).length ≤
          ((x :: rest).filter fun s => x.1 < s.1 + cfg.interval).length := by
        apply filter_length_mono
        intro b _ hb
        simp only [decide_eq_true_eq] at hb ⊢
        omega
      unfold windowCount at hfull
      exact le_trans hmono hfull
    · rw [List.filter_cons_of_neg (by simp; omega)]
      exact ih htail_sorted htail_good a

theorem qstep_time (cfg : QConfig) (arr : Nat → List QTask) (s : QState) :
    (qstep cfg arr s).time = s.time + 1 := rfl

theorem qstep_pending (cfg : QConfig) (arr : Nat → List QTask) (s : QState) :
    (qstep cfg arr s).pending =
      (admitLoop cfg s.time (s.pending ++ arr s.time)
        (s.running.filter fun r => s.time < r.1) s.starts).1 := rfl

theorem qstep_running (cfg : QConfig) (arr : Nat → List QTask) (s : QState) :
    (qstep cfg arr s).running =
      (admitLoop cfg s.time (s.pending ++ arr s.time)
        (s.running.filter fun r => s.time < r.1) s.starts).2.1 := rfl

theorem qstep_starts (cfg : QConfig) (arr : Nat → List QTask) (s : QState) :
    (qstep cfg arr s).starts =
      (admitLoop cfg s.time (s.pending ++ arr s.time)
        (s.running.filter fun r => s.time < r.1) s.starts).2.2 := rfl

theorem qrun_inv (cfg : QConfig) (arr : Nat → List QTask) :
    ∀ n,
      (qrun cfg arr n).time = n ∧
      (qrun cfg arr n).running.length ≤ cfg.concurrency ∧
      (∀ s ∈ (qrun cfg arr n).starts, s.1 < n) ∧
      StartsSorted (qrun cfg arr n).starts ∧
      GoodLog cfg (qrun cfg arr n).starts ∧
      startedIds (qrun cfg arr n) ++ (qrun cfg arr n).pending.map QTask.id =
        arrivedBy arr n := by
  intro n
  induction n with
  | zero =>
    refine ⟨rfl, by simp [qrun], by simp [qrun], ?_, ?_, ?_⟩
    · show List.Pairwise _ ([] : List (Nat × Nat))
      exact List.Pairwise.nil
    · intro x restx hsuf
      have : (x :: restx : List (Nat × Nat)) = [] := List.suffix_nil.mp hsuf
      exact absurd this (by simp)
    · simp [qrun, startedIds, arrivedBy]
  | succ n ih =>
    obtain ⟨htime, hrun, hstar, hsort, hgood, hfifo⟩ := ih
    have hq : qrun cfg arr (n + 1) = qstep cfg arr (qrun cfg arr n) := rfl
    rw [hq]
    unfold startedIds
    rw [qstep_time, qstep_pending, qstep_running, qstep_starts, htime]
    have hstarle : ∀ s ∈ (qrun cfg arr n).starts, s.1 ≤ n :=
      fun s hs => Nat.le_of_lt (hstar s hs)
    have hinv := admitLoop_starts_inv cfg n
      ((qrun cfg arr n).pending ++ arr n)
      ((qrun cfg arr n).running.filter fun r => n < r.1)
      (qrun cfg arr n).starts hstarle hsort hgood
    refine ⟨rfl, ?_, ?_, hinv.2.1, hinv.2.2, ?_⟩
    · apply admitLoop_running_le
      calc ((qrun cfg arr n).running.filter fun r => n < r.1).length
          ≤ (qrun cfg arr n).running.length := List.length_filter_le _ _
        _ ≤ cfg.concurrency := hrun
    · intro s hs
      exact Nat.lt_succ_of_le (hinv.1 s hs)
    · rw [admitLoop_fifo, List.map_append, ← List.append_assoc]
      unfold startedIds at hfifo
      rw [hfifo, arrivedBy_succ]

/-- C3: for every arrival sequence, the dispatch queue as configured by the
repository (concurrency, intervalCap = maxMessagesPerSecond, interval =
1000) never exceeds `concurrency` simultaneously running tasks at any
instant; at most `maxMessagesPerSecond` task starts fall within any rolling
1000 ms window; and the tasks started so far are exactly the earliest
arrivals in FIFO submission order, with every other arrived task still
pending — delayed, never dropped. -/
theorem c3_queue_bounds_fifo (self : Logstash) (arr : Nat → List QTask)
    (n : Nat) :
    (qrun (queueOf self) arr n).running.length ≤ self.concurrency.toNat ∧
    (∀ a, ((qrun (queueOf self) arr n).starts.filter fun s =>
        a < s.1 ∧ s.1 ≤ a + 1000).length ≤ self.maxMessagesPerSecond.toNat) ∧
    startedIds (qrun (queueOf self) arr n) ++
        (qrun (queueOf self) arr n).pending.map QTask.id = arrivedBy arr n ∧
    startedIds (qrun (queueOf self) arr n) =
      (arrivedBy arr n).take (startedIds (qrun (queueOf self) arr n)).length := by
  obtain ⟨ht, hr, hs, hsort, hgood, hfifo⟩ := qrun_inv (queueOf self) arr n
  refine ⟨hr, ?_, hfifo, ?_⟩
  · intro a
    have hw := window_bound (queueOf self) (qrun (queueOf self) arr n).starts
      hsort hgood a
    exact hw
  · rw [← hfifo, List.take_left]
